import Mathlib

/-!
Verification development for the live draft-interpretation core of the
sql-smart-lab repository (src/src/App.js, src/src/SmartSuggestions.js and
the unnamed variant file).  The JavaScript parsing functions are shallowly
embedded as executable Lean functions over `List Char` / `String`:

* `parseSchema`        — src/src/App.js lines 21-39 (SchemaModelBuilder)
* `parseAllInsertRows` — src/src/App.js lines 41-44 (RowTupleExtractor)
* `Part000.parseAllInsertRows` — src/unnamed/part_000 lines 274-277
* `detectTable`        — the `tableMatch` regex of handleEditorChange,
                         src/src/App.js line 118 (TableReferenceDetector)
* `analyzeQuestion`    — src/src/App.js lines 77-110 (IntentRoadmapGenerator)
* `handleEditorChange` — src/src/App.js lines 113-142, synchronous state part

JavaScript regular-expression semantics are translated by hand at each use
site; each definition carries a comment recording the regex it embeds and
why the translation is faithful (leftmost match, greedy/lazy star, negative
lookahead).
-/

/-- JavaScript `\s` restricted to the ASCII range (the drafts and questions
handled by the app are ASCII): space, tab, newline, carriage return,
vertical tab, form feed. -/
def jsWs (c : Char) : Bool :=
  c = ' ' || c = '\t' || c = '\n' || c = '\r' || c = '\x0b' || c = '\x0c'

/-- JavaScript `\w`: ASCII letters, digits and underscore. -/
def isWordChar (c : Char) : Bool :=
  c.isAlphanum || c = '_'

/-- JavaScript `String.prototype.toUpperCase` for the ASCII strings the app
handles (character-wise uppercase). -/
def upperS (s : String) : String :=
  String.mk (s.toList.map Char.toUpper)

/-- JavaScript `String.prototype.toLowerCase` for ASCII strings. -/
def lowerS (s : String) : String :=
  String.mk (s.toList.map Char.toLower)

/-- Case-insensitive character comparison (ASCII), for `/i` regex flags. -/
def ciEq (a b : Char) : Bool :=
  a.toUpper = b.toUpper

/-- Strip a literal pattern from the front of the text, case-insensitively
(the regex flag `i`).  Returns the rest on success. -/
def stripCI : List Char → List Char → Option (List Char)
  | [], l => some l
  | _ :: _, [] => none
  | p :: ps, c :: cs => if ciEq p c then stripCI ps cs else none

/-- Regex `\s+` followed by nothing that can match whitespace: since the
tokens that follow it in every regex of the app start with a non-space
character, the greedy `\s+` always consumes the maximal whitespace run, so
it is embedded as `require one whitespace char, drop the whole run`. -/
def ws1 : List Char → Option (List Char)
  | [] => none
  | c :: cs => if jsWs c then some ((c :: cs).dropWhile jsWs) else none

/-- Regex `(\w+)` at the end of a pattern: the greedy `\w+` captures the
maximal run of word characters (at least one). -/
def word1 (l : List Char) : Option (String × List Char) :=
  let tok := l.takeWhile isWordChar
  if tok.isEmpty then none else some (String.mk tok, l.dropWhile isWordChar)

/-- `List`-level substring test: does `l` contain `pat` as a contiguous
sublist?  Embeds JavaScript `String.prototype.includes`. -/
def containsSubAt : List Char → List Char → Bool
  | [], _ => true
  | _ :: _, [] => false
  | p :: ps, c :: cs => p = c && containsSubAt ps cs

def containsSub (pat : List Char) : List Char → Bool
  | [] => pat.isEmpty
  | c :: t => containsSubAt pat (c :: t) || containsSub pat t

/-- JavaScript `String.prototype.trim` on a char list. -/
def trimL (l : List Char) : List Char :=
  ((l.dropWhile jsWs).reverse.dropWhile jsWs).reverse

/-- The greedy tail `([\s\S]*)\)` of the create-table regex: the star
matches everything, then backtracks until the next character is `)`, i.e.
the capture runs to the LAST `)` of the remaining text.  Returns `none`
when the text holds no `)` at all (then the whole regex fails here). -/
def lastCloseSplit : List Char → Option (List Char)
  | [] => none
  | c :: t =>
    match lastCloseSplit t with
    | some r => some (c :: r)
    | none => if c = ')' then some [] else none

/-- The negative lookahead `(?![^(]*\))` of the column-split regex
succeeds at a comma iff the lookahead `[^(]*\)` fails, i.e. iff the first
parenthesis character in the rest of the content is NOT a `)`.
`lookCloses rest = true` means the lookahead matches (a `)` occurs before
any `(`), so the comma is kept, not split on. -/
def lookCloses : List Char → Bool
  | [] => false
  | c :: t => if c = ')' then true else if c = '(' then false else lookCloses t

/-- JavaScript `columnsContent.split(/,(?![^(]*\))/)`: split at exactly the
commas whose following text does not satisfy `[^(]*\)`.  Like JS `split`,
an empty input yields `[""]` and separators at the edges yield empty
fragments. -/
def splitCols : List Char → List (List Char)
  | [] => [[]]
  | c :: t =>
    if c = ',' && !lookCloses t then
      [] :: splitCols t
    else
      match splitCols t with
      | h :: r => (c :: h) :: r
      | [] => [[c]]

/-- A parsed column: `{ name, type }` objects built in parseSchema. -/
structure ColumnDef where
  name : String
  type : String
deriving DecidableEq, Repr

/-- The `{ name: tableName, columns: parsedCols }` result of parseSchema. -/
structure TableSchema where
  name : String
  columns : List ColumnDef
deriving DecidableEq, Repr

/-- Marker scan `fullDef.includes("INT") || fullDef.includes("NUMBER")`
on the uppercased fragment (App.js line 32). -/
def numMarker (col : List Char) : Bool :=
  let fullDef := col.map Char.toUpper
  containsSub "INT".toList fullDef || containsSub "NUMBER".toList fullDef

/-- Marker scan `fullDef.includes("VARCHAR") || fullDef.includes("CHAR")`
on the uppercased fragment (App.js line 33). -/
def charMarker (col : List Char) : Bool :=
  let fullDef := col.map Char.toUpper
  containsSub "VARCHAR".toList fullDef || containsSub "CHAR".toList fullDef

/-- App.js lines 27-34: per-fragment column construction.
`col.trim().split(/\s+/)[0]` — on a trimmed string the first `\s+`-separated
part is the leading run of non-whitespace characters (and `""` when the
trimmed fragment is empty, since JS `"".split(/\s+/)` is `[""]`).
Then `type` starts as `"TEXT"`, is set to `"Number"` when a numeric marker
occurs, and afterwards to `"Text"` when a character marker occurs. -/
def parseCol (col : List Char) : ColumnDef :=
  let name := (trimL col).takeWhile (fun c => !jsWs c)
  let ty0 := if numMarker col then "Number" else "TEXT"
  let ty := if charMarker col then "Text" else ty0
  ⟨String.mk name, ty⟩

/-- App.js line 35: `c.name && !['PRIMARY','FOREIGN','CONSTRAINT','KEY']
.includes(c.name.toUpperCase())` — the empty name is falsy and dropped. -/
def colKeep (c : ColumnDef) : Bool :=
  c.name != "" &&
    !(["PRIMARY", "FOREIGN", "CONSTRAINT", "KEY"].contains (upperS c.name))

/-- The whole `CREATE\s+TABLE\s+(\w+)\s*\(([\s\S]*)\)` attempt anchored at
the current position: literal `CREATE` (case-insensitive), whitespace,
literal `TABLE`, whitespace, the captured table name, optional whitespace,
`(`, then the greedy capture up to the last `)`.  (The greedy `\w+` and the
`\s*` cannot backtrack usefully because `\w`, `\s` and `(` are pairwise
disjoint character classes.) -/
def createMatchAt (l : List Char) : Option (String × List Char) := do
  let l ← stripCI "CREATE".toList l
  let l ← ws1 l
  let l ← stripCI "TABLE".toList l
  let l ← ws1 l
  let (nm, l) ← word1 l
  let l := l.dropWhile jsWs
  match l with
  | c :: rest =>
    if c = '(' then
      let content ← lastCloseSplit rest
      pure (nm, content)
    else none
  | [] => none

/-- `text.match(regex)` without the `g` flag: the leftmost position at
which the whole pattern matches. -/
def createFind : List Char → Option (String × List Char)
  | [] => none
  | l@(_ :: t) => (createMatchAt l).orElse fun _ => createFind t

/-- App.js lines 21-39 (`parseSchema`): detect the create-table shape,
split the captured column list on commas outside parentheses, build the
column objects, and filter out falsy and constraint-keyword names.
Returns `none` where the source returns `null`. -/
def parseSchema (text : String) : Option TableSchema :=
  (createFind text.toList).map fun (tableName, columnsContent) =>
    ⟨tableName, ((splitCols columnsContent).map parseCol).filter colKeep⟩

example : parseSchema "CREATE TABLE t (a INT, b VARCHAR(10))" =
    some ⟨"t", [⟨"a", "Number"⟩, ⟨"b", "Text"⟩]⟩ := by decide

example : parseSchema "hello" = none := by decide

/-! ## RowTupleExtractor -/

/-- The lazy tail `([\s\S]*?)\)` of the values regex in src/src/App.js line
42: the lazy star extends only until the FIRST `)`; with no `)` in the rest
of the text the whole pattern fails.  Returns (capture, text after the
match). -/
def firstCloseSplit : List Char → Option (List Char × List Char)
  | [] => none
  | c :: t =>
    if c = ')' then some ([], t)
    else (firstCloseSplit t).map fun p => (c :: p.1, p.2)

/-- One attempt of `VALUES\s*\(([\s\S]*?)\)` anchored at the current
position (case-insensitive; the `\s*` is greedy and cannot backtrack since
`(` is not whitespace). -/
def valuesMatchAt (l : List Char) : Option (List Char × List Char) := do
  let l ← stripCI "VALUES".toList l
  let l := l.dropWhile jsWs
  match l with
  | c :: rest => if c = '(' then firstCloseSplit rest else none
  | [] => none

/-- `text.matchAll(regex)` scanning: collect the captures of every
non-overlapping match from left to right, resuming after each match.
`fuel` bounds the recursion; a successful match consumes at least the
eight characters `VALUES()`, so `fuel = length of the text` suffices and
the fuel never runs out before the text does. -/
def findValuesGo : Nat → List Char → List (List Char)
  | 0, _ => []
  | Nat.succ n, l =>
    match valuesMatchAt l with
    | some (content, rest) => content :: findValuesGo n rest
    | none =>
      match l with
      | [] => []
      | _ :: t => findValuesGo n t

/-- JavaScript `content.split(',')`: split at every comma. -/
def splitAllCommas : List Char → List (List Char)
  | [] => [[]]
  | c :: t =>
    if c = ',' then
      [] :: splitAllCommas t
    else
      match splitAllCommas t with
      | h :: r => (c :: h) :: r
      | [] => [[c]]

/-- The regex class `['"]` of the cell cleanup. -/
def isQuote (c : Char) : Bool :=
  c = '\'' || c = '"'

/-- `val.trim().replace(/['"]/g, '')` (App.js line 43): trim, then delete
every single- or double-quote character anywhere in the cell (the `g` flag
makes `replace` remove all of them, not just a surrounding pair). -/
def cellClean (v : List Char) : List Char :=
  (trimL v).filter fun c => !isQuote c

/-- src/src/App.js lines 41-44 (`parseAllInsertRows`): every values group
captured by `/VALUES\s*\(([\s\S]*?)\)/gi`, each split on commas into
trimmed, quote-stripped cells. -/
def parseAllInsertRows (text : String) : List (List String) :=
  let l := text.toList
  (findValuesGo l.length l).map fun content =>
    (splitAllCommas content).map fun v => String.mk (cellClean v)

namespace Part000

/-- The lazy tail `([\s\S]*?)(?:\)|$)` of the variant regex in
src/unnamed/part_000 line 275: the lazy star stops at the first `)`, and
when no `)` remains the `$` alternative lets it match to end-of-text. -/
def firstCloseOrEnd : List Char → List Char × List Char
  | [] => ([], [])
  | c :: t =>
    if c = ')' then ([], t)
    else
      let p := firstCloseOrEnd t
      (c :: p.1, p.2)

/-- One attempt of `VALUES\s*\(([\s\S]*?)(?:\)|$)` at the current
position. -/
def valuesMatchAt (l : List Char) : Option (List Char × List Char) := do
  let l ← stripCI "VALUES".toList l
  let l := l.dropWhile jsWs
  match l with
  | c :: rest => if c = '(' then some (firstCloseOrEnd rest) else none
  | [] => none

/-- `matchAll` scanning for the tolerant variant; same fuel argument as
`findValuesGo` (a match consumes at least `VALUES(`). -/
def findValuesGo : Nat → List Char → List (List Char)
  | 0, _ => []
  | Nat.succ n, l =>
    match Part000.valuesMatchAt l with
    | some (content, rest) => content :: Part000.findValuesGo n rest
    | none =>
      match l with
      | [] => []
      | _ :: t => Part000.findValuesGo n t

/-- src/unnamed/part_000 lines 274-277 (`parseAllInsertRows`, the variant
that tolerates an unterminated values group by capturing to
end-of-text). -/
def parseAllInsertRows (text : String) : List (List String) :=
  let l := text.toList
  (Part000.findValuesGo l.length l).map fun content =>
    (splitAllCommas content).map fun v => String.mk (cellClean v)

end Part000

example : parseAllInsertRows "INSERT INTO t VALUES ('x', 1)" = [["x", "1"]] := by decide
example : parseAllInsertRows "INSERT INTO t VALUES (1, 2" = [] := by decide
example : Part000.parseAllInsertRows "INSERT INTO t VALUES (1, 2" = [["1", "2"]] := by decide

/-! ## TableReferenceDetector -/

/-- The alternative `INSERT\s+INTO` followed by the shared suffix
`\s+(\w+)`. -/
def insertIntoAlt (l : List Char) : Option String := do
  let l ← stripCI "INSERT".toList l
  let l ← ws1 l
  let l ← stripCI "INTO".toList l
  let l ← ws1 l
  let (nm, _) ← word1 l
  pure nm

/-- A plain keyword alternative followed by `\s+(\w+)`. -/
def kwAlt (kw : String) (l : List Char) : Option String := do
  let l ← stripCI kw.toList l
  let l ← ws1 l
  let (nm, _) ← word1 l
  pure nm

/-- The whole pattern `(?:INSERT\s+INTO|FROM|UPDATE|TABLE)\s+(\w+)`
anchored at the current position, alternatives in source order.  (The
four alternatives start with pairwise distinct letters, so at most one of
them can begin to match at a given position and the order is only kept
for fidelity.) -/
def tryDetectAt (l : List Char) : Option String :=
  (insertIntoAlt l).orElse fun _ =>
    (kwAlt "FROM" l).orElse fun _ =>
      (kwAlt "UPDATE" l).orElse fun _ => kwAlt "TABLE" l

/-- `text.match(regex)` without `g`: a JavaScript regex match is
leftmost-first — the engine advances the start position one character at
a time and returns the first position where the whole pattern matches,
regardless of which alternative matched there. -/
def detectGo : List Char → Option String
  | [] => none
  | l@(_ :: t) => (tryDetectAt l).orElse fun _ => detectGo t

/-- The `tableMatch` regex of handleEditorChange, src/src/App.js line 118:
`val.match(/(?:INSERT\s+INTO|FROM|UPDATE|TABLE)\s+(\w+)/i)`, returning the
captured identifier. -/
def detectTable (s : String) : Option String :=
  detectGo s.toList

example : detectTable "INSERT INTO tbl VALUES (1)" = some "tbl" := by decide
example : detectTable "UPDATE a INSERT INTO b" = some "a" := by decide
example : detectTable "hello" = none := by decide

/-! ## IntentRoadmapGenerator -/

/-- The regex literal each roadmap step carries, as a first-class tag so
that steps compare decidably; `regexTest` below gives each tag the
semantics of the source's regex. -/
inductive StepRegex where
  | aggFn
  | fromKw
  | asKw
  | deleteFrom
  | whereKw
  | selectKw
  | createTable
  | ifNotExists
  | parenGroup
deriving DecidableEq, Repr

/-- One `KEYWORD1\s+KEYWORD2` attempt at the current position
(case-insensitive). -/
def seq2At (k1 k2 : List Char) (l : List Char) : Bool :=
  (do
    let l ← stripCI k1 l
    let l ← ws1 l
    let _ ← stripCI k2 l
    pure ()).isSome

/-- One `IF\s+NOT\s+EXISTS`-shaped attempt at the current position. -/
def seq3At (k1 k2 k3 : List Char) (l : List Char) : Bool :=
  (do
    let l ← stripCI k1 l
    let l ← ws1 l
    let l ← stripCI k2 l
    let l ← ws1 l
    let _ ← stripCI k3 l
    pure ()).isSome

/-- `RegExp.prototype.test`: does the pattern match at some position? -/
def scanSuffix (f : List Char → Bool) : List Char → Bool
  | [] => f []
  | l@(_ :: t) => f l || scanSuffix f t

/-- Regex `.` (no `s` flag) excludes line terminators; the app's drafts are
ASCII so `\n` and `\r` are the relevant ones. -/
def isNl (c : Char) : Bool :=
  c = '\n' || c = '\r'

/-- After an `(`: does the lazy-extendable `.*\)` complete on the same
line, i.e. is there a `)` before any line terminator? -/
def closeNoNl : List Char → Bool
  | [] => false
  | c :: t => if c = ')' then true else if isNl c then false else closeNoNl t

/-- `/\(.*\)/.test`: some `(` is followed by a `)` with no line terminator
in between. -/
def parenTest : List Char → Bool
  | [] => false
  | c :: t => (c = '(' && closeNoNl t) || parenTest t

/-- The semantics of each step's regex field (all tested with flag `i`
against the live draft, App.js lines 83-106 and 201-205). -/
def regexTest (r : StepRegex) (s : String) : Bool :=
  let u := s.toList.map Char.toUpper
  match r with
  | .aggFn =>
    containsSub "MAX".toList u || containsSub "MIN".toList u ||
      containsSub "AVG".toList u || containsSub "COUNT".toList u ||
      containsSub "SUM".toList u
  | .fromKw => containsSub "FROM".toList u
  | .asKw => containsSub "AS".toList u
  | .whereKw => containsSub "WHERE".toList u
  | .selectKw => containsSub "SELECT".toList u
  | .deleteFrom => scanSuffix (seq2At "DELETE".toList "FROM".toList) u
  | .createTable => scanSuffix (seq2At "CREATE".toList "TABLE".toList) u
  | .ifNotExists => scanSuffix (seq3At "IF".toList "NOT".toList "EXISTS".toList) u
  | .parenGroup => parenTest s.toList

/-- A roadmap entry `{ id, text, regex }` (App.js lines 82-107). -/
structure Step where
  id : Nat
  text : String
  regex : StepRegex
deriving DecidableEq, Repr

/-- `q.match(/minimum|maximum|max|min|avg|average|count|sum/)` on the
lowercased question: non-null iff some alternative occurs as a
substring. -/
def aggTrigger (q : String) : Bool :=
  let l := q.toList
  containsSub "minimum".toList l || containsSub "maximum".toList l ||
    containsSub "max".toList l || containsSub "min".toList l ||
    containsSub "avg".toList l || containsSub "average".toList l ||
    containsSub "count".toList l || containsSub "sum".toList l

/-- `q.match(/rename|as|title/)`. -/
def renameTrigger (q : String) : Bool :=
  let l := q.toList
  containsSub "rename".toList l || containsSub "as".toList l ||
    containsSub "title".toList l

/-- `q.match(/delete|remove|clear/)`. -/
def delTrigger (q : String) : Bool :=
  let l := q.toList
  containsSub "delete".toList l || containsSub "remove".toList l ||
    containsSub "clear".toList l

/-- `q.match(/list|show|find|select|who/)`. -/
def selTrigger (q : String) : Bool :=
  let l := q.toList
  containsSub "list".toList l || containsSub "show".toList l ||
    containsSub "find".toList l || containsSub "select".toList l ||
    containsSub "who".toList l

/-- `q.match(/where|scoring|more than|greater|less|whose/)`. -/
def whereTrigger (q : String) : Bool :=
  let l := q.toList
  containsSub "where".toList l || containsSub "scoring".toList l ||
    containsSub "more than".toList l || containsSub "greater".toList l ||
    containsSub "less".toList l || containsSub "whose".toList l

/-- `q.match(/create|new table|make table/)` (App.js line 102). -/
def createTrigger (q : String) : Bool :=
  let l := q.toList
  containsSub "create".toList l || containsSub "new table".toList l ||
    containsSub "make table".toList l

/-- The unconditional override template of App.js lines 103-107. -/
def createTableSteps : List Step :=
  [⟨1, "Use CREATE TABLE [TableName]", .createTable⟩,
   ⟨2, "Pro-tip: Use 'IF NOT EXISTS' to avoid errors", .ifNotExists⟩,
   ⟨3, "Define columns inside ( )", .parenGroup⟩]

/-- src/src/App.js lines 77-110 (`analyzeQuestion`): lowercase the
question, pick the step list of the first matching category
(aggregate, else delete, else select-filter, else none), then replace it
wholesale with the create-table template whenever the create trigger also
matches. -/
def analyzeQuestion (studentQuestion : String) : List Step :=
  let q := lowerS studentQuestion
  let steps : List Step :=
    if aggTrigger q then
      let base : List Step :=
        [⟨1, "Use Aggregate Function: SELECT MAX(), MIN(), etc.", .aggFn⟩,
         ⟨2, "Specify Source: FROM [Table]", .fromKw⟩]
      if renameTrigger q then
        base ++ [⟨3, "Rename columns using AS 'New Name'", .asKw⟩]
      else base
    else if delTrigger q then
      [⟨1, "Start with DELETE FROM [Table]", .deleteFrom⟩,
       ⟨2, "Filter using WHERE [Condition]", .whereKw⟩]
    else if selTrigger q then
      let base : List Step :=
        [⟨1, "Start with SELECT [Columns] or *", .selectKw⟩,
         ⟨2, "Identify Source: FROM [Table]", .fromKw⟩]
      if whereTrigger q then
        base ++ [⟨3, "Filter results using WHERE [Condition]", .whereKw⟩]
      else base
    else []
  if createTrigger q then createTableSteps else steps

example : analyzeQuestion "create a new table to count students" = createTableSteps := by decide
example :
    analyzeQuestion "what is the average score" =
      [⟨1, "Use Aggregate Function: SELECT MAX(), MIN(), etc.", .aggFn⟩,
       ⟨2, "Specify Source: FROM [Table]", .fromKw⟩] := by decide
example : regexTest .aggFn "SELECT score FROM t" = false := by decide
example : regexTest .aggFn "SELECT AVG(score) FROM t" = true := by decide

/-! ## Live editor sync (handleEditorChange, synchronous state part) -/

/-- A registry column `{ name: ... }` (no type field), src/src/App.js
lines 8-18. -/
structure RegCol where
  name : String
deriving DecidableEq, Repr

/-- `SCHEMA_REGISTRY` lookup by (lowercased) table name. -/
def SCHEMA_REGISTRY (n : String) : Option (List RegCol) :=
  if n = "student" then
    some [⟨"emp_id"⟩, ⟨"emp_name"⟩, ⟨"departmenit_id"⟩]
  else if n = "department" then
    some [⟨"dept_id"⟩, ⟨"dept_name"⟩, ⟨"location"⟩]
  else if n = "courses" then
    some [⟨"course_id"⟩, ⟨"course_title"⟩, ⟨"credits"⟩]
  else none

/-- The untyped JavaScript `activeSchema` value holds either a registry
entry `{ name, columns: SCHEMA_REGISTRY[tableName] }` (App.js line 124) or
a parsed schema (line 139). -/
inductive ActiveSchema where
  | registry (name : String) (cols : List RegCol)
  | parsed (s : TableSchema)
deriving DecidableEq, Repr

/-- The state slots of App touched by handleEditorChange. -/
structure AppState where
  query : String
  activeSchema : Option ActiveSchema
  existingData : List (List String)
  multiRowPreview : List (List String)
deriving DecidableEq, Repr

/-- src/src/App.js lines 113-142 (`handleEditorChange`), synchronous state
updates.  The one asynchronous step — the background fetch of existing
rows — is an external collaborator; its eventual successful payload is
passed in as `fetch` (`none` models a failed or non-success response, in
which case `setExistingData` is never called).  Order of updates follows
the source: set query; on a table match, registry lookup (may set
activeSchema) and the fetch result (may set existingData); then
`parseSchema` (may set activeSchema); finally `multiRowPreview` is always
replaced. -/
def handleEditorChange (fetch : Option (List (List String)))
    (st : AppState) (value : Option String) : AppState :=
  let val := value.getD ""
  let st := { st with query := val }
  let st :=
    match detectTable val with
    | some tn =>
      let tableName := lowerS tn
      let st :=
        match SCHEMA_REGISTRY tableName with
        | some cols => { st with activeSchema := some (.registry tableName cols) }
        | none => st
      match fetch with
      | some d => { st with existingData := d }
      | none => st
    | none => st
  let st :=
    match parseSchema val with
    | some sch => { st with activeSchema := some (.parsed sch) }
    | none => st
  { st with multiRowPreview := parseAllInsertRows val }

example :
    (handleEditorChange none ⟨"", some (.parsed ⟨"t0", []⟩), [], []⟩
        (some "hello")).activeSchema = some (.parsed ⟨"t0", []⟩) := by decide

/-! ## Claim theorems -/

/-- When the greedy search finds no split point, the text holds no `)`. -/
theorem lastCloseSplit_none : ∀ l : List Char, lastCloseSplit l = none → ')' ∉ l := by
  intro l
  induction l with
  | nil => intro _ h; simp at h
  | cons a t ih =>
    intro h
    unfold lastCloseSplit at h
    cases hl : lastCloseSplit t with
    | some r => rw [hl] at h; simp at h
    | none =>
      rw [hl] at h
      by_cases ha : a = ')'
      · rw [if_pos ha] at h; simp at h
      · rw [if_neg ha] at h
        simp only [List.mem_cons, not_or]
        exact ⟨fun hh => ha hh.symm, ih hl⟩

/-- C1: for the draft `CREATE TABLE t (a INT, b VARCHAR(10))`, parseSchema
returns table `t` and exactly the ordered column list
`[{a, Number}, {b, Text}]` — the parenthesized size parameter of
`VARCHAR(10)` does not cause a column split. -/
theorem claim_C1_create_table_parse :
    parseSchema "CREATE TABLE t (a INT, b VARCHAR(10))" =
      some ⟨"t", [⟨"a", "Number"⟩, ⟨"b", "Text"⟩]⟩ := by decide

/-- C2: on the draft `INSERT INTO t VALUES (1, 2` (unterminated values
group), the `parseAllInsertRows` of src/src/App.js returns NO tuple —
its regex demands a closing parenthesis — while the variant of
src/unnamed/part_000 lines 274-277 captures to end-of-text and returns
the tuple `["1", "2"]`, as the claim and spec describe. -/
theorem claim_C2_unterminated_values_divergence :
    parseAllInsertRows "INSERT INTO t VALUES (1, 2" = [] ∧
    Part000.parseAllInsertRows "INSERT INTO t VALUES (1, 2" = [["1", "2"]] := by decide

/-- C3 counterexample: on `UPDATE a INSERT INTO b` the detector returns
`a` — the capture of the UPDATE pattern matching at the earlier position —
not `b`, the capture of the higher-priority INSERT-INTO pattern that
matches later in the text; selection is position-first, refuting the
priority-first rule the claim states. -/
theorem claim_C3_counterexample :
    detectTable "UPDATE a INSERT INTO b" = some "a" ∧
    detectTable "UPDATE a INSERT INTO b" ≠ some "b" := by decide

/-- C3 (amended): the detector is position-first — the leftmost position
at which any of the four alternatives (insert-into, from, update, table)
completes a match wins, and its captured identifier is returned; the
listed order matters only among alternatives at one position. -/
theorem claim_C3_position_first (l : List Char) (i : Nat) (r : String)
    (hbefore : ∀ j, j < i → tryDetectAt (l.drop j) = none)
    (hat : tryDetectAt (l.drop i) = some r) :
    detectGo l = some r := by
  induction l generalizing i with
  | nil =>
    rw [List.drop_nil] at hat
    have : tryDetectAt ([] : List Char) = none := by decide
    rw [this] at hat
    exact absurd hat (by simp)
  | cons a t ih =>
    cases i with
    | zero =>
      rw [List.drop_zero] at hat
      show (tryDetectAt (a :: t)).orElse (fun _ => detectGo t) = some r
      rw [hat]
      rfl
    | succ i' =>
      have h0 : tryDetectAt (a :: t) = none := by
        have := hbefore 0 (Nat.succ_pos i')
        rwa [List.drop_zero] at this
      show (tryDetectAt (a :: t)).orElse (fun _ => detectGo t) = some r
      rw [h0]
      exact ih i' (fun j hj => hbefore (j + 1) (Nat.succ_lt_succ hj)) hat

/-- C3 witness: in `x FROM tbl` no alternative matches at positions 0 and
1, FROM matches at position 2, so the detector returns `tbl`. -/
theorem claim_C3_position_first_witness :
    detectGo "x FROM tbl".toList = some "tbl" :=
  claim_C3_position_first _ 2 _
    (by intro j hj; interval_cases j <;> decide) (by decide)

/-- C4: whenever the lowercased question matches the create-table trigger
(create, new table, make table), analyzeQuestion discards any step list
from the aggregate, delete or select-filter categories and returns exactly
the three-step create-table template. -/
theorem claim_C4_create_override (question : String)
    (h : createTrigger (lowerS question) = true) :
    analyzeQuestion question = createTableSteps := by
  simp [analyzeQuestion, h]

/-- C4 witness: the question `create a new table to count students` also
matches the aggregate trigger (`count`), yet the roadmap is the
create-table template. -/
theorem claim_C4_create_override_witness :
    aggTrigger (lowerS "create a new table to count students") = true ∧
    analyzeQuestion "create a new table to count students" = createTableSteps :=
  ⟨by decide, claim_C4_create_override _ (by decide)⟩

/-- C5: for every draft text, no column returned by parseSchema has a name
equal, case-insensitively, to PRIMARY, FOREIGN, CONSTRAINT or KEY — every
fragment whose leading token is such a keyword is filtered out. -/
theorem claim_C5_no_constraint_keyword_names (text : String) :
    ((parseSchema text).elim [] TableSchema.columns).all
      (fun c =>
        !(["PRIMARY", "FOREIGN", "CONSTRAINT", "KEY"].contains (upperS c.name))) =
      true := by
  unfold parseSchema
  cases h : createFind text.toList with
  | none => simp
  | some p =>
    obtain ⟨nm, content⟩ := p
    rw [List.all_eq_true]
    intro c hc
    have hc2 : c ∈ List.filter colKeep (List.map parseCol (splitCols content)) := hc
    have h2 := List.of_mem_filter hc2
    unfold colKeep at h2
    rw [Bool.and_eq_true] at h2
    exact h2.2

/-- C6 counterexample: in `INSERT INTO t VALUES (a"b, 1)` the quote stands
inside the cell, not around it; the extractor still deletes it (`replace`
with the `g` flag removes every quote character), returning `ab`, so the
claimed surrounding-pair-only stripping is refuted. -/
theorem claim_C6_counterexample :
    parseAllInsertRows "INSERT INTO t VALUES (a\"b, 1)" = [["ab", "1"]] ∧
    parseAllInsertRows "INSERT INTO t VALUES (a\"b, 1)" ≠ [["a\"b", "1"]] := by decide

/-- C6 (amended): each cell is the comma-separated fragment trimmed and
with EVERY single- or double-quote character deleted, wherever it stands
in the cell — so no quote character ever survives into any cell of any
tuple — and `INSERT INTO t VALUES ('x', 1)` yields exactly the one tuple
`["x", "1"]`. -/
theorem claim_C6_cells_all_quotes_removed :
    parseAllInsertRows "INSERT INTO t VALUES ('x', 1)" = [["x", "1"]] ∧
    ∀ s : String,
      (parseAllInsertRows s).all
        (fun row => row.all fun cell => cell.toList.all fun c => !isQuote c) =
        true := by
  refine ⟨by decide, ?_⟩
  intro s
  unfold parseAllInsertRows
  rw [List.all_eq_true]
  intro row hrow
  rw [List.mem_map] at hrow
  obtain ⟨content, -, rfl⟩ := hrow
  rw [List.all_eq_true]
  intro cell hcell
  rw [List.mem_map] at hcell
  obtain ⟨v, -, rfl⟩ := hcell
  rw [List.all_eq_true]
  intro c hc
  have hc' : c ∈ (trimL v).filter (fun c => !isQuote c) := hc
  exact (List.mem_filter.mp hc').2

/-- C7: on a draft-change event where the table-reference detector finds
nothing and parseSchema finds no create-table shape, the previously
resolved activeSchema is left untouched — the no-match sentinel neither
clears nor replaces the prior preview schema. -/
theorem claim_C7_no_match_preserves_schema (fetch : Option (List (List String)))
    (st : AppState) (value : Option String)
    (hdet : detectTable (value.getD "") = none)
    (hparse : parseSchema (value.getD "") = none) :
    (handleEditorChange fetch st value).activeSchema = st.activeSchema := by
  simp [handleEditorChange, hdet, hparse]

/-- C7 witness: typing the draft `hello` (no table reference, no
create-table shape) leaves a previously parsed schema in place. -/
theorem claim_C7_no_match_preserves_schema_witness :
    (handleEditorChange none ⟨"q0", some (.parsed ⟨"t0", [⟨"a", "TEXT"⟩]⟩), [], []⟩
        (some "hello")).activeSchema =
      some (.parsed ⟨"t0", [⟨"a", "TEXT"⟩]⟩) :=
  claim_C7_no_match_preserves_schema none _ (some "hello") (by decide) (by decide)

/-- C8: for the question `what is the average score` the roadmap is the
two-step aggregate template; its first step carries the aggregate-function
predicate, which is false on `SELECT score FROM t` and true on
`SELECT AVG(score) FROM t`. -/
theorem claim_C8_aggregate_predicate :
    analyzeQuestion "what is the average score" =
      [⟨1, "Use Aggregate Function: SELECT MAX(), MIN(), etc.", .aggFn⟩,
       ⟨2, "Specify Source: FROM [Table]", .fromKw⟩] ∧
    regexTest .aggFn "SELECT score FROM t" = false ∧
    regexTest .aggFn "SELECT AVG(score) FROM t" = true := by decide

/-- C9: the column-list capture is greedy — whenever it returns a content
prefix, the rest of the text starts with the LAST `)` of the remainder
(nothing after it holds a `)`), so later text with a `)`, e.g. a following
statement, is absorbed into the capture; concretely, the trailing
`; SELECT (x)` ends up inside the single returned column fragment. -/
theorem claim_C9_greedy_to_last_close :
    (∀ (l c : List Char), lastCloseSplit l = some c →
      ∃ rest, l = c ++ ')' :: rest ∧ ')' ∉ rest) ∧
    parseSchema "CREATE TABLE t (a, b); SELECT (x)" =
      some ⟨"t", [⟨"a,", "TEXT"⟩]⟩ := by
  constructor
  · intro l
    induction l with
    | nil => intro c h; simp [lastCloseSplit] at h
    | cons a t ih =>
      intro c h
      unfold lastCloseSplit at h
      cases hl : lastCloseSplit t with
      | some r =>
        rw [hl] at h
        obtain rfl : a :: r = c := by simpa using h
        obtain ⟨rest, ht, hn⟩ := ih r hl
        exact ⟨rest, by rw [List.cons_append, ht], hn⟩
      | none =>
        rw [hl] at h
        by_cases ha : a = ')'
        · rw [if_pos ha] at h
          obtain rfl : ([] : List Char) = c := by simpa using h
          subst ha
          exact ⟨t, by simp, lastCloseSplit_none t hl⟩
        · rw [if_neg ha] at h; simp at h
  · decide

/-- C9 witness: splitting `ab)c)` yields the capture `ab)c`, and the rest
past the final `)` holds no further `)`. -/
theorem claim_C9_greedy_to_last_close_witness :
    ∃ rest, "ab)c)".toList = "ab)c".toList ++ ')' :: rest ∧ ')' ∉ rest :=
  claim_C9_greedy_to_last_close.1 _ _ (by decide)

/-- C10: the character-marker check runs after the numeric-marker check,
so a fragment containing both markers is typed Text (e.g. a column named
`internal` of type `CHAR(5)`, whose name already contains the marker INT),
and a fragment containing neither keeps the default spelling `TEXT`. -/
theorem claim_C10_char_marker_wins :
    (∀ col, numMarker col = true → charMarker col = true →
      (parseCol col).type = "Text") ∧
    (∀ col, numMarker col = false → charMarker col = false →
      (parseCol col).type = "TEXT") ∧
    parseSchema "CREATE TABLE t (internal CHAR(5))" =
      some ⟨"t", [⟨"internal", "Text"⟩]⟩ := by
  refine ⟨?_, ?_, by decide⟩
  · intro col h1 h2
    simp [parseCol, h1, h2]
  · intro col h1 h2
    simp [parseCol, h1, h2]

/-- C10 witness: the fragment `internal CHAR(5)` carries both markers and
is typed Text; the markerless fragment `x y` keeps the default TEXT. -/
theorem claim_C10_char_marker_wins_witness :
    (parseCol "internal CHAR(5)".toList).type = "Text" ∧
    (parseCol "x y".toList).type = "TEXT" :=
  ⟨claim_C10_char_marker_wins.1 _ (by decide) (by decide),
   claim_C10_char_marker_wins.2.1 _ (by decide) (by decide)⟩
